import Mathlib

/-!
# Verification of the BangerMan 2D draw-command recorder

Shallow embedding of `src/bangerman.h` (two variants: the fixed-capacity
variant with a hard cap and overflow flag, and the dynamic-growth variant)
and of the SDL3 replayer's logical-to-physical mapping
(`src/renderers/SDL3/bm_renderer_SDL3.c`).

Modelling conventions:
* C `float` values are modelled as exact rationals (`ℚ`).  Every
  float operation a claim depends on (storing, comparing, clamping,
  `* 255.0f + 0.5f` at the claimed inputs) is exact at the values involved.
* C `int` values are modelled as `ℤ` (or `ℕ` for values that are
  provably nonnegative, such as the command count and capacity after
  `bm_create`); C integer division truncates toward zero, which is
  `Int.tdiv` on `ℤ` and plain `/` on `ℕ` for nonnegative operands.
* The global current-context pointer `g_bm_ctx` is modelled as an explicit
  `Option BM_Context` threaded through the public entry points; `none`
  models a null pointer.
* The malloc'd command array is modelled as the `List` of its first
  `command_count` (written) entries; slots past `command_count` are
  uninitialised garbage that no API exposes.  `malloc`/`realloc` are
  modelled as succeeding.
-/

/-- Embeds `BM_Color` from `bangerman.h`: four float channels, modelled as `ℚ`. -/
structure BM_Color where
  r : ℚ
  g : ℚ
  b : ℚ
  a : ℚ
deriving DecidableEq, Repr

/-- Embeds `bm_color_rgba` from `bangerman.h`. -/
def bm_color_rgba (r g b a : ℚ) : BM_Color :=
  { r := r, g := g, b := b, a := a }

/-- Embeds `bm_color_rgb` from `bangerman.h`: alpha defaults to 1. -/
def bm_color_rgb (r g b : ℚ) : BM_Color :=
  bm_color_rgba r g b 1

namespace Fixed

/-!
## Fixed-capacity variant of `bangerman.h`

This is the first copy of `bangerman.h` in the repository: hard capacity
cap, `overflowed` flag, and `bm_begin_frame` auto-appends a
`BM_COMMAND_CLEAR` carrying the current clear color.
-/

/-- Embeds `BM_CommandType` of the fixed-capacity variant. -/
inductive BM_CommandType where
  | CLEAR
  | RECT_FILL
  | RECT_OUTLINE
  | LINE
  | SPRITE
deriving DecidableEq, Repr

/-- The payload union of `BM_Command`.  `undef` models union bytes that the
emitter did not write (the `CLEAR` command written by `bm_begin_frame` sets
only `type` and `color`). -/
inductive BM_CommandData where
  | undef
  | rect (x y w h : ℚ)
  | line (x0 y0 x1 y1 : ℚ)
  | sprite (texture : ℤ) (dst_x dst_y dst_w dst_h src_x src_y src_w src_h : ℚ)
deriving DecidableEq, Repr

/-- Embeds `BM_Command` of the fixed-capacity variant. -/
structure BM_Command where
  type : BM_CommandType
  color : BM_Color
  data : BM_CommandData
deriving DecidableEq, Repr

/-- Embeds `struct BM_Context` of the fixed-capacity variant.  `commands` holds the
first `command_count` entries of the malloc'd array, so the C field
`command_count` is `commands.length`.  The C field `overflowed` is an `int`
used as a flag; it is modelled as `Bool` (`true` iff nonzero). -/
structure BM_Context where
  logical_w : ℚ
  logical_h : ℚ
  clear_color : BM_Color
  current_color : BM_Color
  commands : List BM_Command
  command_capacity : ℕ
  overflowed : Bool
deriving DecidableEq, Repr

/-- Embeds `bm__ensure_capacity` (fixed variant): returns 1 and leaves the context
unchanged when `command_count + needed_extra <= command_capacity`; otherwise
returns 0 and sets the overflow flag (v0.1 hard cap). -/
def bm__ensure_capacity (ctx : BM_Context) (needed_extra : ℕ) : Bool × BM_Context :=
  if ctx.commands.length + needed_extra ≤ ctx.command_capacity then
    (true, ctx)
  else
    (false, { ctx with overflowed := true })

/-- Embeds `bm__push_command` (fixed variant) fused with the caller's writes: in C,
`bm__push_command` reserves the slot `commands[command_count++]` and the
caller then fills in the command's fields; here the filled-in command `cmd`
is appended in one step.  When `bm__ensure_capacity` fails the command is
dropped (the caller sees `NULL` and writes nothing). -/
def bm__push_command (ctx : BM_Context) (cmd : BM_Command) : BM_Context :=
  let res := bm__ensure_capacity ctx 1
  if res.1 then { res.2 with commands := res.2.commands ++ [cmd] } else res.2

/-- Embeds `bm_create` (fixed variant): capacity defaults to 1024 when the argument
is `<= 0`; logical size defaults to 320×180, clear color black, draw color
white.  `malloc` is modelled as succeeding. -/
def bm_create (command_capacity : ℤ) : BM_Context :=
  { logical_w := 320
    logical_h := 180
    clear_color := bm_color_rgb 0 0 0
    current_color := bm_color_rgba 1 1 1 1
    commands := []
    command_capacity := if command_capacity ≤ 0 then 1024 else command_capacity.toNat
    overflowed := false }

/-- Body of `bm_set_logical_size` (fixed variant) for a non-null current
context: non-positive width or height is rejected (no-op). -/
def bm_set_logical_size (width height : ℚ) (ctx : BM_Context) : BM_Context :=
  if width ≤ 0 ∨ height ≤ 0 then ctx
  else { ctx with logical_w := width, logical_h := height }

/-- Body of `bm_get_logical_size` (fixed variant) for a non-null current
context and non-null out pointers: writes the logical width and height. -/
def bm_get_logical_size (ctx : BM_Context) : ℚ × ℚ :=
  (ctx.logical_w, ctx.logical_h)

/-- Body of `bm_set_clear_color` for a non-null current context. -/
def bm_set_clear_color (color : BM_Color) (ctx : BM_Context) : BM_Context :=
  { ctx with clear_color := color }

/-- Body of `bm_set_draw_color` for a non-null current context. -/
def bm_set_draw_color (color : BM_Color) (ctx : BM_Context) : BM_Context :=
  { ctx with current_color := color }

/-- Body of `bm_begin_frame` (fixed variant) for a non-null current context:
resets `command_count` to 0, clears the overflow flag, then pushes a
`BM_COMMAND_CLEAR` carrying the current clear color (only `type` and
`color` of the pushed slot are written; the union stays unwritten). -/
def bm_begin_frame (ctx : BM_Context) : BM_Context :=
  let ctx' := { ctx with commands := [], overflowed := false }
  bm__push_command ctx'
    { type := BM_CommandType.CLEAR, color := ctx'.clear_color
      data := BM_CommandData.undef }

/-- Body of `bm_end_frame`: does nothing in v0.1. -/
def bm_end_frame (ctx : BM_Context) : BM_Context :=
  ctx

/-- Body of `bm_rect_fill` (fixed variant) for a non-null current context. -/
def bm_rect_fill (x y w h : ℚ) (ctx : BM_Context) : BM_Context :=
  bm__push_command ctx
    { type := BM_CommandType.RECT_FILL, color := ctx.current_color
      data := BM_CommandData.rect x y w h }

/-- Body of `bm_rect_outline` (fixed variant). -/
def bm_rect_outline (x y w h : ℚ) (ctx : BM_Context) : BM_Context :=
  bm__push_command ctx
    { type := BM_CommandType.RECT_OUTLINE, color := ctx.current_color
      data := BM_CommandData.rect x y w h }

/-- Body of `bm_line` (fixed variant). -/
def bm_line (x0 y0 x1 y1 : ℚ) (ctx : BM_Context) : BM_Context :=
  bm__push_command ctx
    { type := BM_CommandType.LINE, color := ctx.current_color
      data := BM_CommandData.line x0 y0 x1 y1 }

/-- Body of `bm_sprite` (fixed variant): the command carries the current
draw color as tint. -/
def bm_sprite (texture : ℤ) (dst_x dst_y dst_w dst_h src_x src_y src_w src_h : ℚ)
    (ctx : BM_Context) : BM_Context :=
  bm__push_command ctx
    { type := BM_CommandType.SPRITE, color := ctx.current_color
      data := BM_CommandData.sprite texture dst_x dst_y dst_w dst_h src_x src_y src_w src_h }

/-- Lifts a context-body to the public entry point operating on the global
`g_bm_ctx` pointer: every public mutator/emitter of `bangerman.h` starts
with `if (!g_bm_ctx) return;`, so a null current context is left untouched. -/
def onCurrent (f : BM_Context → BM_Context) : Option BM_Context → Option BM_Context
  | none => none
  | some ctx => some (f ctx)

/-- Embeds `bm_make_current`: unconditionally stores its argument in `g_bm_ctx`. -/
def bm_make_current (ctx : Option BM_Context) (_g : Option BM_Context) :
    Option BM_Context :=
  ctx

/-- Public `bm_set_logical_size` acting on `g_bm_ctx`. -/
def bm_set_logical_size_g (width height : ℚ) : Option BM_Context → Option BM_Context :=
  onCurrent (bm_set_logical_size width height)

/-- Public `bm_set_clear_color` acting on `g_bm_ctx`. -/
def bm_set_clear_color_g (color : BM_Color) : Option BM_Context → Option BM_Context :=
  onCurrent (bm_set_clear_color color)

/-- Public `bm_set_draw_color` acting on `g_bm_ctx`. -/
def bm_set_draw_color_g (color : BM_Color) : Option BM_Context → Option BM_Context :=
  onCurrent (bm_set_draw_color color)

/-- Public `bm_begin_frame` acting on `g_bm_ctx`. -/
def bm_begin_frame_g : Option BM_Context → Option BM_Context :=
  onCurrent bm_begin_frame

/-- Public `bm_end_frame` acting on `g_bm_ctx`. -/
def bm_end_frame_g : Option BM_Context → Option BM_Context :=
  onCurrent bm_end_frame

/-- Public `bm_rect_fill` acting on `g_bm_ctx`. -/
def bm_rect_fill_g (x y w h : ℚ) : Option BM_Context → Option BM_Context :=
  onCurrent (bm_rect_fill x y w h)

/-- Public `bm_rect_outline` acting on `g_bm_ctx`. -/
def bm_rect_outline_g (x y w h : ℚ) : Option BM_Context → Option BM_Context :=
  onCurrent (bm_rect_outline x y w h)

/-- Public `bm_line` acting on `g_bm_ctx`. -/
def bm_line_g (x0 y0 x1 y1 : ℚ) : Option BM_Context → Option BM_Context :=
  onCurrent (bm_line x0 y0 x1 y1)

/-- Public `bm_sprite` acting on `g_bm_ctx`. -/
def bm_sprite_g (texture : ℤ) (dst_x dst_y dst_w dst_h src_x src_y src_w src_h : ℚ) :
    Option BM_Context → Option BM_Context :=
  onCurrent (bm_sprite texture dst_x dst_y dst_w dst_h src_x src_y src_w src_h)

/-- Embeds `bm_get_commands` (fixed variant).  The out pointers are modelled as
`Option` of the memory they point at (`none` = null pointer); the result is
the contents of that memory after the call.  A null `ctx` returns at once,
writing neither out parameter. -/
def bm_get_commands (ctx : Option BM_Context)
    (out_commands : Option (List BM_Command)) (out_count : Option ℤ) :
    Option (List BM_Command) × Option ℤ :=
  match ctx with
  | none => (out_commands, out_count)
  | some c =>
      (out_commands.map (fun _ => c.commands),
       out_count.map (fun _ => (c.commands.length : ℤ)))

/-- Embeds `bm_get_command_capacity`: 0 for a null context. -/
def bm_get_command_capacity (ctx : Option BM_Context) : ℕ :=
  match ctx with
  | none => 0
  | some c => c.command_capacity

/-- Embeds `bm_get_command_count`: 0 for a null context. -/
def bm_get_command_count (ctx : Option BM_Context) : ℕ :=
  match ctx with
  | none => 0
  | some c => c.commands.length

/-- Embeds `bm_has_overflowed`: false for a null context, else whether the
`overflowed` flag is nonzero. -/
def bm_has_overflowed (ctx : Option BM_Context) : Bool :=
  match ctx with
  | none => false
  | some c => c.overflowed

end Fixed

namespace Dyn

/-!
## Dynamic-growth variant of `bangerman.h`

This is the second copy of `bangerman.h` in the repository (the
"CRAYON playground edition"): the command buffer grows geometrically on
demand, there is no overflow flag, and `bm_begin_frame` only resets the
count (no auto-emitted clear command).
-/

/-- Embeds `BM_CommandType` of the dynamic variant (enum values start at 1; the
value 0 left by `memset` is never exposed because every emitter writes
`type`). -/
inductive BM_CommandType where
  | RECT_FILL
  | RECT_OUTLINE
  | LINE
  | SPRITE
deriving DecidableEq, Repr

/-- Embeds `BM_Command` of the dynamic variant: a flat struct.  `bm__push_command`
zeroes the whole slot with `memset` before the emitter writes its fields,
so fields an emitter does not set are 0. -/
structure BM_Command where
  type : BM_CommandType
  color : BM_Color
  x : ℚ
  y : ℚ
  w : ℚ
  h : ℚ
  x2 : ℚ
  y2 : ℚ
  texture : ℤ
deriving DecidableEq, Repr

/-- Embeds `struct BM_Context` of the dynamic variant.  `commands` holds the first
`count` written entries of the allocated array, so the C field `count` is
`commands.length`. -/
structure BM_Context where
  commands : List BM_Command
  capacity : ℕ
  logical_width : ℚ
  logical_height : ℚ
  clear_color : BM_Color
  draw_color : BM_Color
deriving DecidableEq, Repr

/-- Embeds `bm__ensure_capacity` (dynamic variant): when
`count + needed_extra > capacity`, grow to `capacity * 2` (or 64 from 0),
bumped up to `required` if still short, and `realloc` (modelled as
succeeding) keeps the recorded commands. -/
def bm__ensure_capacity (ctx : BM_Context) (needed_extra : ℕ) : BM_Context :=
  let required := ctx.commands.length + needed_extra
  if required ≤ ctx.capacity then ctx
  else
    let new_cap := if ctx.capacity ≠ 0 then ctx.capacity * 2 else 64
    let new_cap := if new_cap < required then required else new_cap
    { ctx with capacity := new_cap }

/-- Embeds `bm__push_command` (dynamic variant) fused with the caller's writes:
grows the buffer if needed, then appends the slot `commands[count++]`
filled in by the caller (the `memset` zeroing is reflected in the emitters,
which pass 0 for every field they do not set). -/
def bm__push_command (ctx : BM_Context) (cmd : BM_Command) : BM_Context :=
  let ctx' := bm__ensure_capacity ctx 1
  { ctx' with commands := ctx'.commands ++ [cmd] }

/-- Embeds `bm_create` (dynamic variant): capacity defaults to 64 when the
argument is `<= 0`; logical size 320×180, clear color opaque black, draw
color opaque white.  `calloc` is modelled as succeeding. -/
def bm_create (command_capacity : ℤ) : BM_Context :=
  { commands := []
    capacity := if command_capacity ≤ 0 then 64 else command_capacity.toNat
    logical_width := 320
    logical_height := 180
    clear_color := bm_color_rgba 0 0 0 1
    draw_color := bm_color_rgba 1 1 1 1 }

/-- Body of `bm_set_logical_size` (dynamic variant) for a non-null current
context: stores both values unconditionally — there is no validation of
non-positive sizes in this variant. -/
def bm_set_logical_size (width height : ℚ) (ctx : BM_Context) : BM_Context :=
  { ctx with logical_width := width, logical_height := height }

/-- Body of `bm_get_logical_size` (dynamic variant). -/
def bm_get_logical_size (ctx : BM_Context) : ℚ × ℚ :=
  (ctx.logical_width, ctx.logical_height)

/-- Body of `bm_set_clear_color` (dynamic variant). -/
def bm_set_clear_color (color : BM_Color) (ctx : BM_Context) : BM_Context :=
  { ctx with clear_color := color }

/-- Body of `bm_set_draw_color` (dynamic variant). -/
def bm_set_draw_color (color : BM_Color) (ctx : BM_Context) : BM_Context :=
  { ctx with draw_color := color }

/-- Body of `bm_begin_frame` (dynamic variant): only resets `count` to 0 —
no clear command is emitted ("Clear is logical only"). -/
def bm_begin_frame (ctx : BM_Context) : BM_Context :=
  { ctx with commands := [] }

/-- Body of `bm_rect_fill` (dynamic variant): unset fields `x2`, `y2`,
`texture` stay 0 from the `memset`. -/
def bm_rect_fill (x y w h : ℚ) (ctx : BM_Context) : BM_Context :=
  bm__push_command ctx
    { type := BM_CommandType.RECT_FILL, color := ctx.draw_color
      x := x, y := y, w := w, h := h, x2 := 0, y2 := 0, texture := 0 }

/-- Body of `bm_rect_outline` (dynamic variant). -/
def bm_rect_outline (x y w h : ℚ) (ctx : BM_Context) : BM_Context :=
  bm__push_command ctx
    { type := BM_CommandType.RECT_OUTLINE, color := ctx.draw_color
      x := x, y := y, w := w, h := h, x2 := 0, y2 := 0, texture := 0 }

/-- Body of `bm_line` (dynamic variant): endpoints go to `(x,y)` and
`(x2,y2)`; `w`, `h`, `texture` stay 0. -/
def bm_line (x0 y0 x1 y1 : ℚ) (ctx : BM_Context) : BM_Context :=
  bm__push_command ctx
    { type := BM_CommandType.LINE, color := ctx.draw_color
      x := x0, y := y0, w := 0, h := 0, x2 := x1, y2 := y1, texture := 0 }

/-- Body of `bm_sprite` (dynamic variant): destination rect plus texture
id; `x2`, `y2` stay 0. -/
def bm_sprite (texture : ℤ) (x y w h : ℚ) (ctx : BM_Context) : BM_Context :=
  bm__push_command ctx
    { type := BM_CommandType.SPRITE, color := ctx.draw_color
      x := x, y := y, w := w, h := h, x2 := 0, y2 := 0, texture := texture }

/-- Embeds `BM_CommandView` of the dynamic variant: borrowed pointer plus count. -/
structure BM_CommandView where
  commands : List BM_Command
  count : ℤ
deriving DecidableEq, Repr

/-- Embeds `bm_get_commands` (dynamic variant).  The out pointer is modelled as
`Option` of the memory it points at (`none` = null); when either `ctx` or
`out_view` is null the function returns at once and the pointed-at memory
is unchanged. -/
def bm_get_commands (ctx : Option BM_Context) (out_view : Option BM_CommandView) :
    Option BM_CommandView :=
  match ctx, out_view with
  | some c, some _ => some { commands := c.commands, count := (c.commands.length : ℤ) }
  | _, _ => out_view

/-- One primitive call of the dynamic variant's emission API, used to state
properties about arbitrary emission sequences within a frame. -/
inductive Prim where
  | rect_fill (x y w h : ℚ)
  | rect_outline (x y w h : ℚ)
  | line (x0 y0 x1 y1 : ℚ)
  | sprite (texture : ℤ) (x y w h : ℚ)
deriving DecidableEq, Repr

/-- Dispatches one primitive call to the corresponding emitter body. -/
def emitPrim (p : Prim) (ctx : BM_Context) : BM_Context :=
  match p with
  | Prim.rect_fill x y w h => bm_rect_fill x y w h ctx
  | Prim.rect_outline x y w h => bm_rect_outline x y w h ctx
  | Prim.line x0 y0 x1 y1 => bm_line x0 y0 x1 y1 ctx
  | Prim.sprite t x y w h => bm_sprite t x y w h ctx

/-- Performs a sequence of primitive calls in order. -/
def emitAll : List Prim → BM_Context → BM_Context
  | [], ctx => ctx
  | p :: ps, ctx => emitAll ps (emitPrim p ctx)

/-- The command record a primitive call appends when the current draw color
is `col` (matching the emitter bodies above). -/
def primCmd (col : BM_Color) : Prim → BM_Command
  | Prim.rect_fill x y w h =>
      { type := BM_CommandType.RECT_FILL, color := col
        x := x, y := y, w := w, h := h, x2 := 0, y2 := 0, texture := 0 }
  | Prim.rect_outline x y w h =>
      { type := BM_CommandType.RECT_OUTLINE, color := col
        x := x, y := y, w := w, h := h, x2 := 0, y2 := 0, texture := 0 }
  | Prim.line x0 y0 x1 y1 =>
      { type := BM_CommandType.LINE, color := col
        x := x0, y := y0, w := 0, h := 0, x2 := x1, y2 := y1, texture := 0 }
  | Prim.sprite t x y w h =>
      { type := BM_CommandType.SPRITE, color := col
        x := x, y := y, w := w, h := h, x2 := 0, y2 := 0, texture := t }

end Dyn

namespace SDL3

/-!
## SDL3 replayer (`src/renderers/SDL3/bm_renderer_SDL3.c`)

Only the pure parts are embedded: the color conversion `BM__ColorToSDL`
and the integer-scale / viewport-placement computation of
`BM_SDL3_Render` (steps 2–5).  C `float` is modelled as `ℚ` and C `int`
as `ℤ`; C integer division truncates toward zero, i.e. `Int.tdiv`.
-/

/-- One channel of `BM__ColorToSDL`: the two sequential range checks
`if (rf < 0.0f) rf = 0.0f; if (rf > 1.0f) rf = 1.0f;`. -/
def BM__ClampChannel (x : ℚ) : ℚ :=
  let x1 := if x < 0 then 0 else x
  if 1 < x1 then 1 else x1

/-- One channel of `BM__ColorToSDL` after clamping: `(Uint8)(rf * 255.0f
+ 0.5f)`.  The C cast truncates toward zero; the operand is nonnegative
after the clamp, so the cast is the floor. -/
def BM__ChannelToSDL (x : ℚ) : ℤ :=
  ⌊BM__ClampChannel x * 255 + 1/2⌋

/-- The four `Uint8` outputs of `BM__ColorToSDL`, as integers (the range
facts `0 ≤ · ≤ 255` are proved, so no wraparound occurs in the cast). -/
structure SDLColor where
  r : ℤ
  g : ℤ
  b : ℤ
  a : ℤ
deriving DecidableEq, Repr

/-- Embeds `BM__ColorToSDL`: clamps each channel to [0,1] and converts to 8-bit. -/
def BM__ColorToSDL (c : BM_Color) : SDLColor :=
  { r := BM__ChannelToSDL c.r
    g := BM__ChannelToSDL c.g
    b := BM__ChannelToSDL c.b
    a := BM__ChannelToSDL c.a }

/-- Result of the scale/viewport computation in `BM_SDL3_Render`. -/
structure Placement where
  scale : ℤ
  vp_w : ℤ
  vp_h : ℤ
  vp_x : ℤ
  vp_y : ℤ
deriving DecidableEq, Repr

/-- Steps 3 of `BM_SDL3_Render`: integer scale and centered viewport.
`out_w × out_h` is the physical output size and `lw × lh` the rounded
integer logical size (`lw = (int)(logical_w + 0.5f)`, exact for the sizes
the claims use).  C `int` division truncates toward zero (`Int.tdiv`). -/
def computePlacement (out_w out_h lw lh : ℤ) : Placement :=
  let scale_x := Int.tdiv out_w lw
  let scale_y := Int.tdiv out_h lh
  let scale0 := if scale_x < scale_y then scale_x else scale_y
  let scale := if scale0 < 1 then 1 else scale0
  let vp_w := lw * scale
  let vp_h := lh * scale
  { scale := scale, vp_w := vp_w, vp_h := vp_h
    vp_x := Int.tdiv (out_w - vp_w) 2
    vp_y := Int.tdiv (out_h - vp_h) 2 }

end SDL3

/-!
## Derived definitions used to state the properties
-/

namespace Fixed

/-- A freshly started frame: `bm_create` followed by `bm_begin_frame`
(with the recorder made current). -/
def freshFrame (command_capacity : ℤ) : BM_Context :=
  bm_begin_frame (bm_create command_capacity)

/-- The command record `bm_rect_fill 0 0 1 1` appends when the current
draw color is `col`. -/
def rectCmd (col : BM_Color) : BM_Command :=
  { type := BM_CommandType.RECT_FILL, color := col
    data := BM_CommandData.rect 0 0 1 1 }

/-- Emits `k` consecutive `bm_rect_fill 0 0 1 1` calls. -/
def emitRects : ℕ → BM_Context → BM_Context
  | 0, ctx => ctx
  | k + 1, ctx => emitRects k (bm_rect_fill 0 0 1 1 ctx)

end Fixed

/-!
## Helper lemmas
-/

namespace Fixed

theorem ensure_of_room {ctx : BM_Context} {k : ℕ}
    (h : ctx.commands.length + k ≤ ctx.command_capacity) :
    bm__ensure_capacity ctx k = (true, ctx) := by
  simp [bm__ensure_capacity, h]

theorem push_of_room {ctx : BM_Context} (cmd : BM_Command)
    (h : ctx.commands.length + 1 ≤ ctx.command_capacity) :
    bm__push_command ctx cmd = { ctx with commands := ctx.commands ++ [cmd] } := by
  simp [bm__push_command, ensure_of_room h]

theorem push_of_full {ctx : BM_Context} (cmd : BM_Command)
    (h : ctx.command_capacity < ctx.commands.length + 1) :
    bm__push_command ctx cmd = { ctx with overflowed := true } := by
  have h' : ¬ (ctx.commands.length + 1 ≤ ctx.command_capacity) := by omega
  simp [bm__push_command, bm__ensure_capacity, h']

theorem create_capacity {N : ℕ} (h : 1 ≤ N) :
    (bm_create (N : ℤ)).command_capacity = N := by
  simp only [bm_create]
  split_ifs with h0 <;> omega

theorem begin_frame_of_room {ctx : BM_Context} (h : 1 ≤ ctx.command_capacity) :
    bm_begin_frame ctx =
      { ctx with
          commands := [{ type := BM_CommandType.CLEAR, color := ctx.clear_color
                         data := BM_CommandData.undef }]
          overflowed := false } := by
  unfold bm_begin_frame
  rw [push_of_room _ (by simpa using h)]
  rfl

theorem emitRects_of_room :
    ∀ (k : ℕ) (ctx : BM_Context), ctx.commands.length + k ≤ ctx.command_capacity →
      emitRects k ctx =
        { ctx with commands := ctx.commands ++ List.replicate k (rectCmd ctx.current_color) } := by
  intro k
  induction k with
  | zero => intro ctx _; simp [emitRects]
  | succ n ih =>
    intro ctx h
    have h1 : ctx.commands.length + 1 ≤ ctx.command_capacity := by omega
    show emitRects n (bm_rect_fill 0 0 1 1 ctx) = _
    rw [bm_rect_fill, push_of_room _ h1]
    rw [ih _ (by simpa using by omega : _)]
    simp [List.replicate_succ, rectCmd]

theorem emitRects_add (a b : ℕ) (ctx : BM_Context) :
    emitRects (a + b) ctx = emitRects b (emitRects a ctx) := by
  induction a generalizing ctx with
  | zero => simp [emitRects]
  | succ n ih =>
    have : n + 1 + b = (n + b) + 1 := by omega
    rw [this]
    show emitRects (n + b) (bm_rect_fill 0 0 1 1 ctx) = _
    rw [ih]
    rfl

end Fixed

namespace Dyn

theorem ensure_commands (ctx : BM_Context) (k : ℕ) :
    (bm__ensure_capacity ctx k).commands = ctx.commands := by
  unfold bm__ensure_capacity
  dsimp only
  split_ifs <;> rfl

theorem ensure_draw_color (ctx : BM_Context) (k : ℕ) :
    (bm__ensure_capacity ctx k).draw_color = ctx.draw_color := by
  unfold bm__ensure_capacity
  dsimp only
  split_ifs <;> rfl

theorem push_commands (ctx : BM_Context) (cmd : BM_Command) :
    (bm__push_command ctx cmd).commands = ctx.commands ++ [cmd] := by
  unfold bm__push_command
  dsimp only
  rw [ensure_commands]

theorem push_draw_color (ctx : BM_Context) (cmd : BM_Command) :
    (bm__push_command ctx cmd).draw_color = ctx.draw_color := by
  unfold bm__push_command
  dsimp only
  rw [ensure_draw_color]

theorem emitPrim_eq (p : Prim) (ctx : BM_Context) :
    emitPrim p ctx = bm__push_command ctx (primCmd ctx.draw_color p) := by
  cases p <;> rfl

theorem emitAll_spec :
    ∀ (ps : List Prim) (ctx : BM_Context),
      (emitAll ps ctx).commands = ctx.commands ++ ps.map (primCmd ctx.draw_color) ∧
      (emitAll ps ctx).draw_color = ctx.draw_color := by
  intro ps
  induction ps with
  | nil => intro ctx; simp [emitAll]
  | cons p ps ih =>
    intro ctx
    show (emitAll ps (emitPrim p ctx)).commands = _ ∧
      (emitAll ps (emitPrim p ctx)).draw_color = _
    rw [emitPrim_eq]
    obtain ⟨hc, hd⟩ := ih (bm__push_command ctx (primCmd ctx.draw_color p))
    constructor
    · rw [hc, push_commands, push_draw_color]
      simp
    · rw [hd, push_draw_color]

end Dyn

namespace SDL3

theorem clamp_mem (x : ℚ) :
    0 ≤ BM__ClampChannel x ∧ BM__ClampChannel x ≤ 1 := by
  unfold BM__ClampChannel
  dsimp only
  split_ifs <;> constructor <;> linarith

end SDL3

/-!
## Claims
-/

/-- Claim C1, amended: in the fixed-capacity variant `bm_begin_frame`
auto-appends a Clear command that occupies one of the N slots, so for every
recorder created with capacity N ≥ 1, emitting exactly N-1 primitives after
`bm_begin_frame` leaves `bm_has_overflowed() == false` (with N commands
recorded), while emitting N primitives sets it to true and the N-th
primitive is absent from the snapshot, which holds the Clear plus the first
N-1 primitives; an append attempted when `count == capacity` is dropped and
sets the overflow flag. -/
theorem C1_capacity_boundary (N : ℕ) (hN : 1 ≤ N) :
    (Fixed.bm_has_overflowed
        (some (Fixed.emitRects (N - 1) (Fixed.freshFrame (N : ℤ)))) = false ∧
      (Fixed.emitRects (N - 1) (Fixed.freshFrame (N : ℤ))).commands.length = N) ∧
    (Fixed.bm_has_overflowed
        (some (Fixed.emitRects N (Fixed.freshFrame (N : ℤ)))) = true ∧
      (Fixed.emitRects N (Fixed.freshFrame (N : ℤ))).commands =
        { type := Fixed.BM_CommandType.CLEAR
          color := (Fixed.bm_create (N : ℤ)).clear_color
          data := Fixed.BM_CommandData.undef } ::
          List.replicate (N - 1) (Fixed.rectCmd (Fixed.bm_create (N : ℤ)).current_color)) ∧
    (∀ (ctx : Fixed.BM_Context) (x y w h : ℚ),
      ctx.commands.length = ctx.command_capacity →
      Fixed.bm_rect_fill x y w h ctx = { ctx with overflowed := true }) := by
  obtain ⟨M, rfl⟩ : ∃ M, N = M + 1 := ⟨N - 1, by omega⟩
  simp only [Nat.add_sub_cancel]
  have hcap : (Fixed.bm_create ((M + 1 : ℕ) : ℤ)).command_capacity = M + 1 :=
    Fixed.create_capacity hN
  have hff : Fixed.freshFrame ((M + 1 : ℕ) : ℤ) =
      { Fixed.bm_create ((M + 1 : ℕ) : ℤ) with
        commands := [{ type := Fixed.BM_CommandType.CLEAR
                       color := (Fixed.bm_create ((M + 1 : ℕ) : ℤ)).clear_color
                       data := Fixed.BM_CommandData.undef }]
        overflowed := false } := by
    unfold Fixed.freshFrame
    exact @Fixed.begin_frame_of_room (Fixed.bm_create ((M + 1 : ℕ) : ℤ)) (by rw [hcap]; omega)
  have hEm : Fixed.emitRects M (Fixed.freshFrame ((M + 1 : ℕ) : ℤ)) =
      { Fixed.bm_create ((M + 1 : ℕ) : ℤ) with
        commands := { type := Fixed.BM_CommandType.CLEAR
                      color := (Fixed.bm_create ((M + 1 : ℕ) : ℤ)).clear_color
                      data := Fixed.BM_CommandData.undef } ::
          List.replicate M (Fixed.rectCmd (Fixed.bm_create ((M + 1 : ℕ) : ℤ)).current_color)
        overflowed := false } := by
    rw [hff, Fixed.emitRects_of_room M _
      (by dsimp only; rw [hcap]; simp only [List.length_singleton]; omega)]
    rfl
  have hstep : ∀ (k : ℕ) (s : Fixed.BM_Context),
      Fixed.emitRects (k + 1) s = Fixed.bm_rect_fill 0 0 1 1 (Fixed.emitRects k s) := by
    intro k s
    rw [Fixed.emitRects_add k 1 s]
    rfl
  refine ⟨⟨?_, ?_⟩, ⟨?_, ?_⟩, ?_⟩
  · rw [hEm]; rfl
  · rw [hEm]; simp
  · rw [hstep, hEm]
    unfold Fixed.bm_rect_fill
    rw [Fixed.push_of_full _
      (by dsimp only; rw [hcap]; simp only [List.length_cons, List.length_replicate]; omega)]
    rfl
  · rw [hstep, hEm]
    unfold Fixed.bm_rect_fill
    rw [Fixed.push_of_full _
      (by dsimp only; rw [hcap]; simp only [List.length_cons, List.length_replicate]; omega)]
  · intro ctx x y w h hfull
    unfold Fixed.bm_rect_fill
    rw [Fixed.push_of_full _ (by omega)]

/-- Claim C1, counterexample to the claim as stated: with capacity N = 2,
after `bm_begin_frame` emitting exactly N = 2 primitives already sets
`bm_has_overflowed()` to true (the claim says it stays false), because the
auto-emitted Clear occupies one of the two slots. -/
theorem C1_counterexample :
    Fixed.bm_has_overflowed
      (some (Fixed.emitRects 2 (Fixed.freshFrame ((2 : ℕ) : ℤ)))) = true := by
  decide

/-- Claim C1, witness: the amended theorem applied at capacity N = 3. -/
theorem C1_capacity_boundary_witness :
    Fixed.bm_has_overflowed
        (some (Fixed.emitRects 2 (Fixed.freshFrame ((3 : ℕ) : ℤ)))) = false ∧
      (Fixed.emitRects 2 (Fixed.freshFrame ((3 : ℕ) : ℤ))).commands.length = 3 :=
  (C1_capacity_boundary 3 (by decide)).1

/-- Claim C2: for every recorder state (hence after any sequence of primitive
calls and state mutations of the prior frame), calling `bm_begin_frame` again
yields command_count 1 in the fixed-capacity variant — the auto-clear policy:
command 0 is a Clear carrying the current clear color — with
`bm_has_overflowed() == false`, and command_count 0 in the dynamic variant;
every context created by `bm_create` satisfies the capacity precondition. -/
theorem C2_reset_invariant :
    (∀ ctx : Fixed.BM_Context, 1 ≤ ctx.command_capacity →
       (Fixed.bm_begin_frame ctx).commands =
         [{ type := Fixed.BM_CommandType.CLEAR, color := ctx.clear_color
            data := Fixed.BM_CommandData.undef }] ∧
       Fixed.bm_has_overflowed (some (Fixed.bm_begin_frame ctx)) = false) ∧
    (∀ n : ℤ, 1 ≤ (Fixed.bm_create n).command_capacity) ∧
    (∀ ctx : Dyn.BM_Context, (Dyn.bm_begin_frame ctx).commands = []) := by
  refine ⟨?_, ?_, fun ctx => rfl⟩
  · intro ctx h
    rw [@Fixed.begin_frame_of_room ctx h]
    exact ⟨rfl, rfl⟩
  · intro n
    simp only [Fixed.bm_create]
    split_ifs <;> omega

/-- Claim C2, witness: the reset invariant applied to a freshly created
fixed-capacity recorder of capacity 4. -/
theorem C2_reset_invariant_witness :
    (Fixed.bm_begin_frame (Fixed.bm_create 4)).commands =
      [{ type := Fixed.BM_CommandType.CLEAR
         color := (Fixed.bm_create 4).clear_color
         data := Fixed.BM_CommandData.undef }] ∧
    Fixed.bm_has_overflowed (some (Fixed.bm_begin_frame (Fixed.bm_create 4))) = false :=
  C2_reset_invariant.1 (Fixed.bm_create 4) (by decide)

/-- Claim C3: in the dynamic-growth variant, emitting any sequence of
primitives into a recorder created with `bm_create(4)` within one frame
records exactly that sequence in order with no data loss (this variant has
no auto-clear, so 1000 primitives yield a snapshot of length exactly 1000),
and when `count == capacity` the capacity grows to
`max(capacity*2, count+needed)`. -/
theorem C3_dynamic_growth :
    (∀ ps : List Dyn.Prim,
       (Dyn.emitAll ps (Dyn.bm_begin_frame (Dyn.bm_create 4))).commands =
         ps.map (Dyn.primCmd (Dyn.bm_create 4).draw_color)) ∧
    (∀ ps : List Dyn.Prim, ps.length = 1000 →
       (Dyn.emitAll ps (Dyn.bm_begin_frame (Dyn.bm_create 4))).commands.length = 1000) ∧
    (∀ (ctx : Dyn.BM_Context) (c : Dyn.BM_Command),
       ctx.commands.length = ctx.capacity → 0 < ctx.capacity →
       (Dyn.bm__push_command ctx c).capacity =
         max (ctx.capacity * 2) (ctx.commands.length + 1)) := by
  have hmain : ∀ ps : List Dyn.Prim,
      (Dyn.emitAll ps (Dyn.bm_begin_frame (Dyn.bm_create 4))).commands =
        ps.map (Dyn.primCmd (Dyn.bm_create 4).draw_color) := by
    intro ps
    obtain ⟨hc, _⟩ := Dyn.emitAll_spec ps (Dyn.bm_begin_frame (Dyn.bm_create 4))
    rw [hc]
    rfl
  refine ⟨hmain, ?_, ?_⟩
  · intro ps hlen
    rw [hmain ps]
    simp [hlen]
  · intro ctx c hfull hpos
    unfold Dyn.bm__push_command Dyn.bm__ensure_capacity
    dsimp only
    rw [if_neg (by omega)]
    rw [if_pos (by omega : ctx.capacity ≠ 0)]
    dsimp only
    rw [Nat.max_def]
    split_ifs <;> omega

/-- Claim C3, witness: 1000 `rect_fill` calls into a capacity-4 dynamic
recorder yield 1000 recorded commands, and pushing into a full capacity-4
buffer grows it by the `max(capacity*2, count+1)` rule. -/
theorem C3_dynamic_growth_witness :
    (Dyn.emitAll (List.replicate 1000 (Dyn.Prim.rect_fill 0 0 1 1))
        (Dyn.bm_begin_frame (Dyn.bm_create 4))).commands.length = 1000 ∧
    (Dyn.bm__push_command
        (Dyn.emitAll (List.replicate 4 (Dyn.Prim.rect_fill 0 0 1 1))
          (Dyn.bm_begin_frame (Dyn.bm_create 4)))
        (Dyn.primCmd (Dyn.bm_create 4).draw_color (Dyn.Prim.rect_fill 0 0 1 1))).capacity =
      max ((Dyn.emitAll (List.replicate 4 (Dyn.Prim.rect_fill 0 0 1 1))
          (Dyn.bm_begin_frame (Dyn.bm_create 4))).capacity * 2)
        ((Dyn.emitAll (List.replicate 4 (Dyn.Prim.rect_fill 0 0 1 1))
          (Dyn.bm_begin_frame (Dyn.bm_create 4))).commands.length + 1) :=
  ⟨C3_dynamic_growth.2.1 (List.replicate 1000 (Dyn.Prim.rect_fill 0 0 1 1))
     (List.length_replicate 1000 (Dyn.Prim.rect_fill 0 0 1 1)),
   C3_dynamic_growth.2.2 _ _ (by decide) (by decide)⟩

/-- Claim C4, amended: the fixed-capacity variant's `bm_set_logical_size`
is a no-op for non-positive width or height, preserving the prior
(positive) logical size, which therefore never becomes zero or negative;
the dynamic variant's `bm_set_logical_size`, however, performs no
validation and stores non-positive values as given. -/
theorem C4_logical_size_guard :
    (∀ (ctx : Fixed.BM_Context) (w h : ℚ), (w ≤ 0 ∨ h ≤ 0) →
       Fixed.bm_set_logical_size w h ctx = ctx) ∧
    (∀ (ctx : Fixed.BM_Context) (w h : ℚ), (w ≤ 0 ∨ h ≤ 0) →
       Fixed.bm_get_logical_size (Fixed.bm_set_logical_size w h ctx) =
         Fixed.bm_get_logical_size ctx) ∧
    (∀ (ctx : Fixed.BM_Context) (w h : ℚ), 0 < ctx.logical_w → 0 < ctx.logical_h →
       0 < (Fixed.bm_set_logical_size w h ctx).logical_w ∧
       0 < (Fixed.bm_set_logical_size w h ctx).logical_h) := by
  have h1 : ∀ (ctx : Fixed.BM_Context) (w h : ℚ), (w ≤ 0 ∨ h ≤ 0) →
      Fixed.bm_set_logical_size w h ctx = ctx := by
    intro ctx w h hw
    unfold Fixed.bm_set_logical_size
    rw [if_pos hw]
  refine ⟨h1, fun ctx w h hw => by rw [h1 ctx w h hw], ?_⟩
  intro ctx w h hw hh
  unfold Fixed.bm_set_logical_size
  split_ifs with hcase
  · exact ⟨hw, hh⟩
  · push_neg at hcase
    constructor
    · show 0 < w
      exact hcase.1
    · show 0 < h
      exact hcase.2

/-- Claim C4, counterexample to the claim as stated: in the dynamic-growth
variant, `bm_set_logical_size(-1,-1)` is not a no-op — it replaces the
prior logical size 320×180 with the non-positive values -1×-1. -/
theorem C4_counterexample :
    (Dyn.bm_create 4).logical_width = 320 ∧
    (Dyn.bm_set_logical_size (-1) (-1) (Dyn.bm_create 4)).logical_width = -1 ∧
    (Dyn.bm_set_logical_size (-1) (-1) (Dyn.bm_create 4)).logical_height = -1 :=
  ⟨rfl, rfl, rfl⟩

/-- Claim C4, witness: the fixed-variant guard applied to a concrete
recorder and the non-positive width -1. -/
theorem C4_logical_size_guard_witness :
    Fixed.bm_set_logical_size (-1) 50 (Fixed.bm_create 4) = Fixed.bm_create 4 :=
  C4_logical_size_guard.1 (Fixed.bm_create 4) (-1) 50 (Or.inl (by norm_num))

/-- Claim C5: the SDL3 replayer's mapping for physical 800×600 and logical
320×180 gives integer scale 2, viewport 640×360 and offsets (80, 120); the
scale is never below 1, and whenever the physical surface is smaller than
the logical canvas in either dimension the scale stays exactly 1. -/
theorem C5_scale_mapping :
    SDL3.computePlacement 800 600 320 180 =
      { scale := 2, vp_w := 640, vp_h := 360, vp_x := 80, vp_y := 120 } ∧
    (∀ out_w out_h lw lh : ℤ, 1 ≤ (SDL3.computePlacement out_w out_h lw lh).scale) ∧
    (∀ out_w out_h lw lh : ℤ, 0 ≤ out_w → 0 ≤ out_h → 0 < lw → 0 < lh →
       (out_w < lw ∨ out_h < lh) →
       (SDL3.computePlacement out_w out_h lw lh).scale = 1) := by
  refine ⟨by decide, ?_, ?_⟩
  · intro out_w out_h lw lh
    unfold SDL3.computePlacement
    dsimp only
    split_ifs <;> omega
  · intro out_w out_h lw lh hw hh hlw hlh hsm
    have hx : 0 ≤ Int.tdiv out_w lw := Int.tdiv_nonneg hw (le_of_lt hlw)
    have hy : 0 ≤ Int.tdiv out_h lh := Int.tdiv_nonneg hh (le_of_lt hlh)
    have hzero : Int.tdiv out_w lw = 0 ∨ Int.tdiv out_h lh = 0 := by
      rcases hsm with hcase | hcase
      · left
        rw [Int.tdiv_eq_ediv hw (le_of_lt hlw)]
        exact Int.ediv_eq_zero_of_lt hw hcase
      · right
        rw [Int.tdiv_eq_ediv hh (le_of_lt hlh)]
        exact Int.ediv_eq_zero_of_lt hh hcase
    unfold SDL3.computePlacement
    dsimp only
    rcases hzero with h0 | h0 <;> rw [h0] <;> split_ifs <;> omega

/-- Claim C5, witness: on a 100×100 physical surface, smaller than the
320×180 logical canvas, the scale stays 1. -/
theorem C5_scale_mapping_witness :
    (SDL3.computePlacement 100 100 320 180).scale = 1 :=
  C5_scale_mapping.2.2 100 100 320 180 (by decide) (by decide) (by decide)
    (by decide) (Or.inl (by decide))

/-- Claim C6: setting the draw color to c1, emitting a rect-fill, setting
it to c2 and emitting a second rect-fill appends exactly two commands, the
first carrying c1 and the second c2 — a later `bm_set_draw_color` never
retroactively changes an already-recorded command. -/
theorem C6_color_binding (c1 c2 : BM_Color) (ctx : Fixed.BM_Context)
    (hroom : ctx.commands.length + 2 ≤ ctx.command_capacity) :
    (Fixed.bm_rect_fill 4 5 6 7 (Fixed.bm_set_draw_color c2
        (Fixed.bm_rect_fill 0 1 2 3 (Fixed.bm_set_draw_color c1 ctx)))).commands =
      ctx.commands ++
        [{ type := Fixed.BM_CommandType.RECT_FILL, color := c1
           data := Fixed.BM_CommandData.rect 0 1 2 3 },
         { type := Fixed.BM_CommandType.RECT_FILL, color := c2
           data := Fixed.BM_CommandData.rect 4 5 6 7 }] := by
  have s1 : Fixed.bm_rect_fill 0 1 2 3 (Fixed.bm_set_draw_color c1 ctx) =
      { ctx with
        current_color := c1
        commands := ctx.commands ++
          [{ type := Fixed.BM_CommandType.RECT_FILL, color := c1
             data := Fixed.BM_CommandData.rect 0 1 2 3 }] } := by
    unfold Fixed.bm_set_draw_color Fixed.bm_rect_fill
    rw [Fixed.push_of_room _ (by dsimp only; omega)]
  rw [s1]
  unfold Fixed.bm_set_draw_color Fixed.bm_rect_fill
  rw [Fixed.push_of_room _
    (by dsimp only; simp only [List.length_append, List.length_singleton]; omega)]
  simp

/-- Claim C6, witness: red then green rect-fills on a fresh capacity-8
frame record red for the first command and green for the second. -/
theorem C6_color_binding_witness :
    (Fixed.bm_rect_fill 4 5 6 7 (Fixed.bm_set_draw_color (bm_color_rgb 0 1 0)
        (Fixed.bm_rect_fill 0 1 2 3 (Fixed.bm_set_draw_color (bm_color_rgb 1 0 0)
          (Fixed.freshFrame 8))))).commands =
      (Fixed.freshFrame 8).commands ++
        [{ type := Fixed.BM_CommandType.RECT_FILL, color := bm_color_rgb 1 0 0
           data := Fixed.BM_CommandData.rect 0 1 2 3 },
         { type := Fixed.BM_CommandType.RECT_FILL, color := bm_color_rgb 0 1 0
           data := Fixed.BM_CommandData.rect 4 5 6 7 }] :=
  C6_color_binding (bm_color_rgb 1 0 0) (bm_color_rgb 0 1 0) (Fixed.freshFrame 8)
    (by decide)

/-- Claim C7: the snapshot is exactly the emission order — rect-fill, line,
rect-fill within one frame yields tags [Clear, RectFill, Line, RectFill]
in the fixed variant (auto-clear prepended) and [RectFill, Line, RectFill]
in the dynamic variant. -/
theorem C7_order_preservation :
    (∀ ctx : Fixed.BM_Context, 4 ≤ ctx.command_capacity →
       ((Fixed.bm_rect_fill 9 9 1 1 (Fixed.bm_line 0 0 5 5
           (Fixed.bm_rect_fill 1 1 2 2 (Fixed.bm_begin_frame ctx)))).commands.map
          Fixed.BM_Command.type) =
         [Fixed.BM_CommandType.CLEAR, Fixed.BM_CommandType.RECT_FILL,
          Fixed.BM_CommandType.LINE, Fixed.BM_CommandType.RECT_FILL]) ∧
    (∀ ctx : Dyn.BM_Context,
       ((Dyn.bm_rect_fill 9 9 1 1 (Dyn.bm_line 0 0 5 5
           (Dyn.bm_rect_fill 1 1 2 2 (Dyn.bm_begin_frame ctx)))).commands.map
          Dyn.BM_Command.type) =
         [Dyn.BM_CommandType.RECT_FILL, Dyn.BM_CommandType.LINE,
          Dyn.BM_CommandType.RECT_FILL]) := by
  constructor
  · intro ctx hcap
    have h2 : 2 ≤ ctx.command_capacity := by omega
    have h3 : 3 ≤ ctx.command_capacity := by omega
    have h4 : 4 ≤ ctx.command_capacity := by omega
    rw [@Fixed.begin_frame_of_room ctx (by omega)]
    simp [Fixed.bm_rect_fill, Fixed.bm_line, Fixed.bm__push_command,
      Fixed.bm__ensure_capacity, h2, h3, h4]
  · intro ctx
    simp [Dyn.bm_rect_fill, Dyn.bm_line, Dyn.bm_begin_frame, Dyn.push_commands]

/-- Claim C7, witness: the fixed-variant order property applied to a
freshly created capacity-8 recorder. -/
theorem C7_order_preservation_witness :
    ((Fixed.bm_rect_fill 9 9 1 1 (Fixed.bm_line 0 0 5 5
        (Fixed.bm_rect_fill 1 1 2 2 (Fixed.bm_begin_frame (Fixed.bm_create 8))))).commands.map
       Fixed.BM_Command.type) =
      [Fixed.BM_CommandType.CLEAR, Fixed.BM_CommandType.RECT_FILL,
       Fixed.BM_CommandType.LINE, Fixed.BM_CommandType.RECT_FILL] :=
  C7_order_preservation.1 (Fixed.bm_create 8) (by decide)

/-- Claim C8: the SDL3 backend clamps each channel to [0,1] before the
8-bit conversion, for all four channels alike: a channel value of 1.5
converts to 255 and -0.3 to 0, and every channel's output lies in
[0,255] — no wraparound. -/
theorem C8_clamp_law :
    (∀ c : BM_Color, SDL3.BM__ColorToSDL c =
       { r := SDL3.BM__ChannelToSDL c.r, g := SDL3.BM__ChannelToSDL c.g
         b := SDL3.BM__ChannelToSDL c.b, a := SDL3.BM__ChannelToSDL c.a }) ∧
    SDL3.BM__ChannelToSDL (3/2) = 255 ∧
    SDL3.BM__ChannelToSDL (-3/10) = 0 ∧
    (∀ x : ℚ, 0 ≤ SDL3.BM__ChannelToSDL x ∧ SDL3.BM__ChannelToSDL x ≤ 255) := by
  refine ⟨fun c => rfl, ?_, ?_, ?_⟩
  · unfold SDL3.BM__ChannelToSDL SDL3.BM__ClampChannel
    dsimp only
    norm_num
  · unfold SDL3.BM__ChannelToSDL SDL3.BM__ClampChannel
    dsimp only
    norm_num
  · intro x
    obtain ⟨h0, h1⟩ := SDL3.clamp_mem x
    constructor
    · unfold SDL3.BM__ChannelToSDL
      exact Int.floor_nonneg.mpr (by linarith)
    · unfold SDL3.BM__ChannelToSDL
      have hlt : SDL3.BM__ClampChannel x * 255 + 1/2 < ((256 : ℤ) : ℚ) := by
        push_cast
        linarith
      have hfl := Int.floor_lt.mpr hlt
      omega

/-- Claim C9: with a null current recorder (after `bm_make_current(NULL)`
or before any recorder is made current), every primitive emitter and every
configuration mutator is a silent no-op: the (absent) state is unchanged
and nothing is signaled. -/
theorem C9_null_recorder_noop :
    (∀ g : Option Fixed.BM_Context, Fixed.bm_make_current none g = none) ∧
    (∀ x y w h : ℚ, Fixed.bm_rect_fill_g x y w h none = none) ∧
    (∀ x y w h : ℚ, Fixed.bm_rect_outline_g x y w h none = none) ∧
    (∀ x0 y0 x1 y1 : ℚ, Fixed.bm_line_g x0 y0 x1 y1 none = none) ∧
    (∀ (t : ℤ) (dx dy dw dh sx sy sw sh : ℚ),
       Fixed.bm_sprite_g t dx dy dw dh sx sy sw sh none = none) ∧
    (∀ w h : ℚ, Fixed.bm_set_logical_size_g w h none = none) ∧
    (∀ c : BM_Color, Fixed.bm_set_clear_color_g c none = none) ∧
    (∀ c : BM_Color, Fixed.bm_set_draw_color_g c none = none) ∧
    Fixed.bm_begin_frame_g none = none ∧
    Fixed.bm_end_frame_g none = none :=
  ⟨fun _ => rfl, fun _ _ _ _ => rfl, fun _ _ _ _ => rfl, fun _ _ _ _ => rfl,
   fun _ _ _ _ _ _ _ _ _ => rfl, fun _ _ => rfl, fun _ => rfl, fun _ => rfl,
   rfl, rfl⟩

/-- Claim C10: `bm_get_commands` with a null context returns immediately
without writing through the out pointers, which keep whatever the caller
stored there; the dynamic variant likewise leaves `out_view` untouched
when `ctx` or `out_view` is null. -/
theorem C10_get_commands_null_ctx :
    (∀ (oc : Option (List Fixed.BM_Command)) (onum : Option ℤ),
       Fixed.bm_get_commands none oc onum = (oc, onum)) ∧
    (∀ ov : Option Dyn.BM_CommandView, Dyn.bm_get_commands none ov = ov) ∧
    (∀ ctx : Dyn.BM_Context, Dyn.bm_get_commands (some ctx) none = none) :=
  ⟨fun _ _ => rfl, fun ov => by cases ov <;> rfl, fun _ => rfl⟩
